import Mathlib

/-!
Verification of the chromeos_update_engine utility layer (src/utils.h).

The scoped resource guards are defined inline in utils.h and are embedded
here directly from that source.  Functions whose bodies live in utils.cc
(not part of the sources at hand) are modelled from the specification, as
marked in their doc comments.  Side effects are made explicit: a guard
destructor returns the list of release actions it performs, together with
the new value of any caller state it writes back.
-/

namespace UpdateEngine

/-- Release actions a scoped guard destructor can perform.  Each constructor
records the external call made by the corresponding C++ destructor. -/
inductive ReleaseAction where
  | unmount (mountpoint : String)
  | closeFd (fd : Int)
  | ext2fsClose (filsys : Nat)
  | unlinkPath (path : String)
  | rmdirPath (path : String)
  | actionComplete (processor : Nat) (action : Nat) (code : Nat)
  deriving DecidableEq, Repr

/-- Outcome of one close(2) call, as seen by HANDLE_EINTR: success (returns
0), interruption (returns -1 with errno EINTR), or another failure. -/
inductive CloseOutcome where
  | ok
  | eintr
  | err
  deriving DecidableEq, Repr

/-- HANDLE_EINTR(close(fd)) retries while the call returns -1 with errno
EINTR; the guard treats the final result as success iff it is 0.  The list
is the schedule of outcomes the kernel produces; an exhausted schedule is
read as failure. -/
def handleEintrClose : List CloseOutcome → Bool
  | [] => false
  | CloseOutcome.eintr :: rest => handleEintrClose rest
  | CloseOutcome.ok :: _ => true
  | CloseOutcome.err :: _ => false

/-- Modelled from the spec: the generic error sentinel kActionCodeError of
the ActionExitCode enum declared in action_processor.h, which is not among
the sources at hand.  Its concrete value is immaterial to the claims; it is
only a distinguished code. -/
def kActionCodeError : Nat := 1

/-- Class to unmount FS when object goes out of scope (utils.h line 310). -/
structure ScopedFilesystemUnmounter where
  mountpoint_ : String
  should_unmount_ : Bool
  deriving DecidableEq, Repr

def ScopedFilesystemUnmounter.init (mountpoint : String) : ScopedFilesystemUnmounter :=
  { mountpoint_ := mountpoint, should_unmount_ := true }

def ScopedFilesystemUnmounter.set_should_unmount
    (g : ScopedFilesystemUnmounter) (unmount : Bool) : ScopedFilesystemUnmounter :=
  { g with should_unmount_ := unmount }

def ScopedFilesystemUnmounter.destruct (g : ScopedFilesystemUnmounter) : List ReleaseAction :=
  if g.should_unmount_ then [ReleaseAction.unmount g.mountpoint_] else []

/-- Utility class to close a file descriptor (utils.h line 328).  The field
fd_ models the int pointer: none is a null pointer, some v points at the
caller variable holding v.  The destructor takes whether close(2) returned
0 and yields the actions performed plus the new pointed-to value. -/
structure ScopedFdCloser where
  fd_ : Option Int
  should_close_ : Bool
  deriving DecidableEq, Repr

def ScopedFdCloser.init (fd : Option Int) : ScopedFdCloser :=
  { fd_ := fd, should_close_ := true }

def ScopedFdCloser.set_should_close (g : ScopedFdCloser) (should_close : Bool) : ScopedFdCloser :=
  { g with should_close_ := should_close }

def ScopedFdCloser.destruct (g : ScopedFdCloser) (closeOk : Bool) :
    List ReleaseAction × Option Int :=
  match g.fd_ with
  | none => ([], none)
  | some v =>
    if g.should_close_ ∧ 0 ≤ v then
      if closeOk then ([ReleaseAction.closeFd v], some (-1))
      else ([ReleaseAction.closeFd v], some v)
    else ([], some v)

/-- An EINTR-immune file descriptor closer (utils.h line 345): identical to
ScopedFdCloser except the close is wrapped in HANDLE_EINTR; the destructor
takes the schedule of close outcomes. -/
structure ScopedEintrSafeFdCloser where
  fd_ : Option Int
  should_close_ : Bool
  deriving DecidableEq, Repr

def ScopedEintrSafeFdCloser.init (fd : Option Int) : ScopedEintrSafeFdCloser :=
  { fd_ := fd, should_close_ := true }

def ScopedEintrSafeFdCloser.set_should_close
    (g : ScopedEintrSafeFdCloser) (should_close : Bool) : ScopedEintrSafeFdCloser :=
  { g with should_close_ := should_close }

def ScopedEintrSafeFdCloser.destruct (g : ScopedEintrSafeFdCloser)
    (sched : List CloseOutcome) : List ReleaseAction × Option Int :=
  match g.fd_ with
  | none => ([], none)
  | some v =>
    if g.should_close_ ∧ 0 ≤ v then
      if handleEintrClose sched then ([ReleaseAction.closeFd v], some (-1))
      else ([ReleaseAction.closeFd v], some v)
    else ([], some v)

/-- Utility class to close a file system (utils.h line 362).  It carries no
armed flag and no setter; the destructor closes unconditionally. -/
structure ScopedExt2fsCloser where
  filsys_ : Nat
  deriving DecidableEq, Repr

def ScopedExt2fsCloser.init (filsys : Nat) : ScopedExt2fsCloser :=
  { filsys_ := filsys }

def ScopedExt2fsCloser.destruct (g : ScopedExt2fsCloser) : List ReleaseAction :=
  [ReleaseAction.ext2fsClose g.filsys_]

/-- Utility class to delete a file when it goes out of scope (utils.h
line 373). -/
structure ScopedPathUnlinker where
  path_ : String
  should_remove_ : Bool
  deriving DecidableEq, Repr

def ScopedPathUnlinker.init (path : String) : ScopedPathUnlinker :=
  { path_ := path, should_remove_ := true }

def ScopedPathUnlinker.set_should_remove
    (g : ScopedPathUnlinker) (should_remove : Bool) : ScopedPathUnlinker :=
  { g with should_remove_ := should_remove }

def ScopedPathUnlinker.destruct (g : ScopedPathUnlinker) : List ReleaseAction :=
  if g.should_remove_ then [ReleaseAction.unlinkPath g.path_] else []

/-- Utility class to delete an empty directory when it goes out of scope
(utils.h line 393). -/
structure ScopedDirRemover where
  path_ : String
  should_remove_ : Bool
  deriving DecidableEq, Repr

def ScopedDirRemover.init (path : String) : ScopedDirRemover :=
  { path_ := path, should_remove_ := true }

def ScopedDirRemover.set_should_remove
    (g : ScopedDirRemover) (should_remove : Bool) : ScopedDirRemover :=
  { g with should_remove_ := should_remove }

def ScopedDirRemover.destruct (g : ScopedDirRemover) : List ReleaseAction :=
  if g.should_remove_ then [ReleaseAction.rmdirPath g.path_] else []

/-- ScopedTempUnmounter (utils.h line 415) derives from ScopedDirRemover:
its own destructor body unmounts the path unconditionally, then the base
destructor runs and removes the directory iff should_remove_ is set. -/
structure ScopedTempUnmounter where
  path_ : String
  should_remove_ : Bool
  deriving DecidableEq, Repr

def ScopedTempUnmounter.init (path : String) : ScopedTempUnmounter :=
  { path_ := path, should_remove_ := true }

def ScopedTempUnmounter.set_should_remove
    (g : ScopedTempUnmounter) (should_remove : Bool) : ScopedTempUnmounter :=
  { g with should_remove_ := should_remove }

def ScopedTempUnmounter.destruct (g : ScopedTempUnmounter) : List ReleaseAction :=
  ReleaseAction.unmount g.path_ ::
    (if g.should_remove_ then [ReleaseAction.rmdirPath g.path_] else [])

/-- A little object to call ActionComplete on the ActionProcessor when it
is destructed (utils.h line 428).  Processor and action are modelled by
abstract identifiers; the destructor reports which call it makes. -/
structure ScopedActionCompleter where
  processor_ : Nat
  action_ : Nat
  code_ : Nat
  should_complete_ : Bool
  deriving DecidableEq, Repr

def ScopedActionCompleter.init (processor action : Nat) : ScopedActionCompleter :=
  { processor_ := processor, action_ := action,
    code_ := kActionCodeError, should_complete_ := true }

def ScopedActionCompleter.set_code (g : ScopedActionCompleter) (code : Nat) :
    ScopedActionCompleter :=
  { g with code_ := code }

def ScopedActionCompleter.set_should_complete (g : ScopedActionCompleter)
    (should_complete : Bool) : ScopedActionCompleter :=
  { g with should_complete_ := should_complete }

def ScopedActionCompleter.destruct (g : ScopedActionCompleter) : List ReleaseAction :=
  if g.should_complete_ then
    [ReleaseAction.actionComplete g.processor_ g.action_ g.code_]
  else []

/-- Bytes one pread(2) call can deliver: the request is capped by what
remains of the file past the offset (natural subtraction truncates at 0,
matching a read past end-of-file returning 0 bytes). -/
def preadAvail (fileSize offset req : Nat) : Nat :=
  min req (fileSize - offset)

/-- One scheduled behaviour of a pread(2) call: eintr makes the call fail
with errno EINTR, cap k lets it succeed but deliver at most k + 1 bytes (a
short read); once the schedule is exhausted every call delivers all
available bytes. -/
inductive PReadEvent where
  | eintr
  | cap (k : Nat)
  deriving DecidableEq, Repr

/-- Modelled from the spec: the loop body of PReadAll of utils.cc, which is
not among the sources at hand.  Per the utils.h comment and the spec it
calls pread repeatedly until count bytes are read or EOF is reached,
retrying past EINTR, accumulating into bytesRead; on success the total is
reported.  The file is modelled by its size, the kernel by the event
schedule; none signals a non-EINTR failure (which this model never emits,
as the schedule carries no hard errors). -/
def PReadAllLoop (fileSize count offset : Nat) :
    Nat → List PReadEvent → Option Nat
  | bytesRead, PReadEvent.eintr :: rest =>
      if bytesRead < count then PReadAllLoop fileSize count offset bytesRead rest
      else some bytesRead
  | bytesRead, PReadEvent.cap k :: rest =>
      if bytesRead < count then
        let rc := min (preadAvail fileSize (offset + bytesRead) (count - bytesRead)) (k + 1)
        if rc = 0 then some bytesRead
        else PReadAllLoop fileSize count offset (bytesRead + rc) rest
      else some bytesRead
  | bytesRead, [] =>
      if h : bytesRead < count then
        let rc := preadAvail fileSize (offset + bytesRead) (count - bytesRead)
        if hrc : rc = 0 then some bytesRead
        else PReadAllLoop fileSize count offset (bytesRead + rc) []
      else some bytesRead
  termination_by bytesRead sched => (sched.length, count - bytesRead)
  decreasing_by
    · exact Prod.Lex.left _ _ (Nat.lt_succ_self _)
    · exact Prod.Lex.left _ _ (Nat.lt_succ_self _)
    · exact Prod.Lex.right _ (by omega)

/-- Modelled from the spec: PReadAll(fd, buf, count, offset, out) of
utils.cc.  Returns some total on success, where total is the value stored
in out_bytes_read. -/
def PReadAll (fileSize count offset : Nat) (sched : List PReadEvent) : Option Nat :=
  PReadAllLoop fileSize count offset 0 sched

/-- Modelled from the spec: BootKernelDevice of utils.cc, which is not
among the sources at hand.  It works by string modification of the last
character of the boot device: a trailing 3, 5 or 7 is decremented to 2, 4
or 6; any other input yields the empty string. -/
def BootKernelDevice (boot_device : String) : String :=
  match boot_device.data.getLast? with
  | some c =>
      if c = '3' ∨ c = '5' ∨ c = '7' then
        String.mk (boot_device.data.dropLast ++ [Char.ofNat (c.toNat - 1)])
      else ""
  | none => ""

/-- Modelled from the spec: GetBaseErrorCode of utils.cc and the
ActionExitCode layout of action_processor.h, neither among the sources at
hand.  The low flagShift bits carry the base enumerator and the higher
bits are informational flags; the flags are masked off and any base at or
beyond the declared enum range umaMax is replaced by the unknown-error
sentinel, which is umaMax itself. -/
def GetBaseErrorCode (flagShift umaMax code : Nat) : Nat :=
  let base := code % 2 ^ flagShift
  if base < umaMax then base else umaMax

/-- Test for the mandatory /dev/ root of a partition device path. -/
def hasDevRoot (s : String) : Bool :=
  s.data.take 5 = '/' :: 'd' :: 'e' :: 'v' :: '/' :: []

/-- Length of the maximal trailing run of decimal digits of a string. -/
def trailingDigits (s : String) : Nat :=
  (s.data.reverse.takeWhile Char.isDigit).length

/-- Modelled from the spec: RootDevice of utils.cc, which is not among the
sources at hand.  It strips the maximal trailing run of decimal digits of
a /dev/ path; an input without the /dev/ root or without trailing digits
yields the empty string. -/
def RootDevice (partition_device : String) : String :=
  if hasDevRoot partition_device ∧ 0 < trailingDigits partition_device then
    String.mk (partition_device.data.take
      (partition_device.data.length - trailingDigits partition_device))
  else ""

/-- Modelled from the spec: PartitionNumber of utils.cc, which is not among
the sources at hand.  It returns the stripped digit run as a string, and
the empty string on malformed input. -/
def PartitionNumber (partition_device : String) : String :=
  if hasDevRoot partition_device ∧ 0 < trailingDigits partition_device then
    String.mk (partition_device.data.drop
      (partition_device.data.length - trailingDigits partition_device))
  else ""

/-- Modelled from the spec: the RandInt(lo, hi) primitive used by FuzzInt,
drawing an integer in the closed range lo..hi.  The random draw is made
explicit by an oracle clamped into the range. -/
def RandInt (oracle lo hi : Int) : Int :=
  lo + oracle.emod (hi - lo + 1)

/-- Modelled from the source doc comment of utils.h (the utils.cc body is
not among the sources at hand): FuzzInt fuzzes value randomly in the
closed range value - range / 2 to value + range - range / 2. -/
def FuzzInt (oracle : Int) (value : Int) (range : Nat) : Int :=
  RandInt oracle (value - (range / 2 : Nat)) (value + ((range : Int) - (range / 2 : Nat)))

/-- Cgroups cpu shares constants (utils.h line 257). -/
inductive CpuShares where
  | kCpuSharesHigh
  | kCpuSharesNormal
  | kCpuSharesLow
  deriving DecidableEq, Repr

/-- Underlying integer of each CpuShares enumerator (utils.h line 257). -/
def CpuShares.toInt : CpuShares → Int
  | CpuShares.kCpuSharesHigh => 2048
  | CpuShares.kCpuSharesNormal => 1024
  | CpuShares.kCpuSharesLow => 2

/-- Modelled from the spec: CompareCpuShares of utils.cc, which is not
among the sources at hand; it returns a signed comparison of the
underlying integers of the two shares levels. -/
def CompareCpuShares (shares_lhs shares_rhs : CpuShares) : Int :=
  shares_lhs.toInt - shares_rhs.toInt

/-- HexDumpVector (utils.h line 185) passes the address of element 0 of the
vector to HexDumpArray.  Taking that address requires the element to exist,
so the empty vector has no defined behaviour: the embedding returns none
there, and otherwise the pair of buffer and length handed to HexDumpArray. -/
def HexDumpVector (vect : List Char) : Option (List Char × Nat) :=
  match vect.head? with
  | none => none
  | some _ => some (vect, vect.length)

/-- HexDumpString (utils.h line 182) passes str.data() and str.size() to
HexDumpArray; this is well defined for every string, the empty one
included. -/
def HexDumpString (str : String) : Option (List Char × Nat) :=
  some (str.data, str.length)

/-- C1 counterexample: a disarmed ScopedTempUnmounter still performs a
release action on destruction, because its own destructor body unmounts
the path unconditionally; so release-iff-armed fails for this guard type
at the concrete path /tmp/dir. -/
theorem scoped_guard_release_iff_armed_counterexample :
    ((ScopedTempUnmounter.init "/tmp/dir").set_should_remove false).destruct ≠ [] := by
  decide

/-- C1 (amended): the filesystem unmounter, fd closer, EINTR-safe fd
closer, path unlinker, dir remover and action completer each carry an
armed flag defaulting to true with a setter that disarms it, and their
destructors perform the release action iff armed (the fd closers further
require a non-null pointer to a non-negative fd, and write back the fd);
the ext2 filesystem closer carries no flag and always closes; the temp
unmounter always unmounts and guards only its inherited directory removal
by the flag. -/
theorem scoped_guards_armed_release (m p d : String) (fs pr ac : Nat)
    (b ok : Bool) (v : Int) (sched : List CloseOutcome) :
    ((ScopedFilesystemUnmounter.init m).should_unmount_ = true ∧
      ((ScopedFilesystemUnmounter.init m).set_should_unmount b).destruct =
        (if b then [ReleaseAction.unmount m] else [])) ∧
    ((ScopedFdCloser.init (some v)).should_close_ = true ∧
      ((ScopedFdCloser.init (some v)).set_should_close b).destruct ok =
        (if b ∧ 0 ≤ v then
          ([ReleaseAction.closeFd v], some (if ok then -1 else v))
         else ([], some v)) ∧
      (ScopedFdCloser.init none).destruct ok = ([], none)) ∧
    ((ScopedEintrSafeFdCloser.init (some v)).should_close_ = true ∧
      ((ScopedEintrSafeFdCloser.init (some v)).set_should_close b).destruct sched =
        (if b ∧ 0 ≤ v then
          ([ReleaseAction.closeFd v], some (if handleEintrClose sched then -1 else v))
         else ([], some v))) ∧
    ((ScopedExt2fsCloser.init fs).destruct = [ReleaseAction.ext2fsClose fs]) ∧
    ((ScopedPathUnlinker.init p).should_remove_ = true ∧
      ((ScopedPathUnlinker.init p).set_should_remove b).destruct =
        (if b then [ReleaseAction.unlinkPath p] else [])) ∧
    ((ScopedDirRemover.init d).should_remove_ = true ∧
      ((ScopedDirRemover.init d).set_should_remove b).destruct =
        (if b then [ReleaseAction.rmdirPath d] else [])) ∧
    ((ScopedTempUnmounter.init d).should_remove_ = true ∧
      ((ScopedTempUnmounter.init d).set_should_remove b).destruct =
        ReleaseAction.unmount d ::
          (if b then [ReleaseAction.rmdirPath d] else [])) ∧
    ((ScopedActionCompleter.init pr ac).should_complete_ = true ∧
      ((ScopedActionCompleter.init pr ac).set_should_complete b).destruct =
        (if b then [ReleaseAction.actionComplete pr ac kActionCodeError] else [])) := by
  cases b <;> by_cases hv : (0 : Int) ≤ v <;>
    simp [ScopedFilesystemUnmounter.init, ScopedFilesystemUnmounter.set_should_unmount,
      ScopedFilesystemUnmounter.destruct, ScopedFdCloser.init,
      ScopedFdCloser.set_should_close, ScopedFdCloser.destruct,
      ScopedEintrSafeFdCloser.init, ScopedEintrSafeFdCloser.set_should_close,
      ScopedEintrSafeFdCloser.destruct, ScopedExt2fsCloser.init,
      ScopedExt2fsCloser.destruct, ScopedPathUnlinker.init,
      ScopedPathUnlinker.set_should_remove, ScopedPathUnlinker.destruct,
      ScopedDirRemover.init, ScopedDirRemover.set_should_remove,
      ScopedDirRemover.destruct, ScopedTempUnmounter.init,
      ScopedTempUnmounter.set_should_remove, ScopedTempUnmounter.destruct,
      ScopedActionCompleter.init, ScopedActionCompleter.set_should_complete,
      ScopedActionCompleter.destruct, hv] <;>
    constructor <;> split <;> rfl

/-- C2: a ScopedActionCompleter whose code was never set calls
ActionComplete(action, kActionCodeError) exactly once on destruction;
set_code makes it forward the given code instead; set_should_complete
false suppresses the call entirely. -/
theorem scoped_action_completer_semantics (pr ac c : Nat) :
    (ScopedActionCompleter.init pr ac).destruct =
      [ReleaseAction.actionComplete pr ac kActionCodeError] ∧
    ((ScopedActionCompleter.init pr ac).set_code c).destruct =
      [ReleaseAction.actionComplete pr ac c] ∧
    ((ScopedActionCompleter.init pr ac).set_should_complete false).destruct = [] := by
  simp [ScopedActionCompleter.init, ScopedActionCompleter.set_code,
    ScopedActionCompleter.set_should_complete, ScopedActionCompleter.destruct]

/-- C3: an armed fd closer over a non-null pointer to a non-negative fd
invokes close on that fd and writes -1 back exactly when the close
succeeds, leaving the fd unchanged on close failure; a negative fd is not
closed.  The same holds for the EINTR-safe variant, whose close outcome is
the EINTR-retried result of the schedule. -/
theorem scoped_fd_closer_destruct (v : Int) (ok : Bool) (sched : List CloseOutcome) :
    (0 ≤ v →
      (ScopedFdCloser.init (some v)).destruct ok =
        ([ReleaseAction.closeFd v], some (if ok then -1 else v)) ∧
      (ScopedEintrSafeFdCloser.init (some v)).destruct sched =
        ([ReleaseAction.closeFd v], some (if handleEintrClose sched then -1 else v))) ∧
    (v < 0 →
      (ScopedFdCloser.init (some v)).destruct ok = ([], some v) ∧
      (ScopedEintrSafeFdCloser.init (some v)).destruct sched = ([], some v)) := by
  constructor
  · intro hv
    constructor
    · cases ok <;>
        simp [ScopedFdCloser.init, ScopedFdCloser.destruct, hv]
    · cases hE : handleEintrClose sched <;>
        simp [ScopedEintrSafeFdCloser.init, ScopedEintrSafeFdCloser.destruct, hv, hE]
  · intro hv
    have hv2 : ¬ (0 ≤ v) := by omega
    constructor
    · simp [ScopedFdCloser.init, ScopedFdCloser.destruct, hv2]
    · simp [ScopedEintrSafeFdCloser.init, ScopedEintrSafeFdCloser.destruct, hv2]

/-- Witness for C3 at fd 3, a failing plain close, and an EINTR-then-ok
schedule for the EINTR-safe closer. -/
theorem scoped_fd_closer_destruct_witness :
    (ScopedFdCloser.init (some 3)).destruct false =
      ([ReleaseAction.closeFd 3], some 3) ∧
    (ScopedEintrSafeFdCloser.init (some 3)).destruct
        [CloseOutcome.eintr, CloseOutcome.ok] =
      ([ReleaseAction.closeFd 3], some (-1)) := by
  have h := (scoped_fd_closer_destruct 3 false
    [CloseOutcome.eintr, CloseOutcome.ok]).1 (by decide)
  simpa using h

/-- C5: BootKernelDevice maps a trailing 3, 5 or 7 to 2, 4 or 6 leaving
the rest of the string unchanged, and yields the empty string for every
other trailing character and for the empty input. -/
theorem bootkernel_last_digit (t : String) (c : Char) :
    BootKernelDevice (t.push '3') = t.push '2' ∧
    BootKernelDevice (t.push '5') = t.push '4' ∧
    BootKernelDevice (t.push '7') = t.push '6' ∧
    (c ≠ '3' → c ≠ '5' → c ≠ '7' → BootKernelDevice (t.push c) = "") ∧
    BootKernelDevice "" = "" := by
  have hdata : ∀ ch : Char, (t.push ch).data = t.data ++ [ch] := fun _ => rfl
  refine ⟨?_, ?_, ?_, ?_, rfl⟩ <;>
    simp only [BootKernelDevice, hdata, List.getLast?_concat, List.dropLast_concat]
  · rfl
  · rfl
  · rfl
  · intro h3 h5 h7
    simp [h3, h5, h7]

/-- Witness for C5: a concrete boot device with trailing 3 maps to the
kernel device with trailing 2, and a trailing 1 yields the empty string. -/
theorem bootkernel_last_digit_witness :
    BootKernelDevice ("/dev/sda".push '3') = "/dev/sda".push '2' ∧
    BootKernelDevice ("/dev/sda".push '1') = "" := by
  refine ⟨(bootkernel_last_digit "/dev/sda" '1').1, ?_⟩
  exact (bootkernel_last_digit "/dev/sda" '1').2.2.2.1
    (by decide) (by decide) (by decide)

/-- C6: GetBaseErrorCode is idempotent for every code and every layout of
flag bits and enum range: masking the flags and clamping to the sentinel a
second time changes nothing. -/
theorem getbaseerrorcode_idempotent (flagShift umaMax code : Nat) :
    GetBaseErrorCode flagShift umaMax (GetBaseErrorCode flagShift umaMax code) =
      GetBaseErrorCode flagShift umaMax code := by
  have hpow : 0 < 2 ^ flagShift := by positivity
  have hbase : code % 2 ^ flagShift < 2 ^ flagShift := Nat.mod_lt _ hpow
  simp only [GetBaseErrorCode]
  by_cases h : code % 2 ^ flagShift < umaMax
  · simp only [if_pos h, Nat.mod_eq_of_lt hbase, if_pos h]
  · simp only [if_neg h,
      Nat.mod_eq_of_lt (show umaMax < 2 ^ flagShift by omega),
      if_neg (lt_irrefl umaMax)]

/-- Helper: with an exhausted schedule every pread delivers all available
bytes, so the loop total is the lesser of the request and what the file
holds past the offset.  The gas parameter bounds the remaining request and
drives the induction. -/
theorem preadallLoop_nil_eq (gas : Nat) :
    ∀ fileSize count offset bytesRead : Nat, count - bytesRead ≤ gas →
      bytesRead ≤ count →
      PReadAllLoop fileSize count offset bytesRead [] =
        some (bytesRead + min (count - bytesRead) (fileSize - (offset + bytesRead))) := by
  induction gas with
  | zero =>
    intro fileSize count offset bytesRead hgas hbr
    have hbc : bytesRead = count := by omega
    rw [PReadAllLoop, dif_neg (by omega)]
    congr 1
    omega
  | succ g ih =>
    intro fileSize count offset bytesRead hgas hbr
    by_cases h : bytesRead < count
    · rw [PReadAllLoop, dif_pos h]
      by_cases hrc : preadAvail fileSize (offset + bytesRead) (count - bytesRead) = 0
      · rw [dif_pos hrc]
        simp only [preadAvail] at hrc
        congr 1
        omega
      · rw [dif_neg hrc]
        have hone : 0 < preadAvail fileSize (offset + bytesRead) (count - bytesRead) := by
          omega
        have hle : preadAvail fileSize (offset + bytesRead) (count - bytesRead) ≤
            count - bytesRead := by
          simp only [preadAvail]
          omega
        rw [ih fileSize count offset _ (by omega) (by omega)]
        congr 1
        simp only [preadAvail] at hone hle ⊢
        omega
    · rw [PReadAllLoop, dif_neg h]
      congr 1
      omega

/-- Helper: the loop total is schedule independent: EINTR events are
retried and short reads are resumed, so any schedule yields the same total
as the exhausted one. -/
theorem preadallLoop_eq (fileSize count offset : Nat) (sched : List PReadEvent) :
    ∀ bytesRead : Nat, bytesRead ≤ count →
      PReadAllLoop fileSize count offset bytesRead sched =
        some (bytesRead + min (count - bytesRead) (fileSize - (offset + bytesRead))) := by
  induction sched with
  | nil =>
    intro bytesRead hbr
    exact preadallLoop_nil_eq (count - bytesRead) fileSize count offset bytesRead le_rfl hbr
  | cons e rest ih =>
    intro bytesRead hbr
    cases e with
    | eintr =>
      by_cases h : bytesRead < count
      · rw [PReadAllLoop, if_pos h]
        exact ih bytesRead hbr
      · rw [PReadAllLoop, if_neg h]
        congr 1
        omega
    | cap k =>
      by_cases h : bytesRead < count
      · rw [PReadAllLoop, if_pos h]
        simp only []
        by_cases hrc :
            min (preadAvail fileSize (offset + bytesRead) (count - bytesRead)) (k + 1) = 0
        · rw [if_pos hrc]
          simp only [preadAvail] at hrc
          congr 1
          omega
        · rw [if_neg hrc]
          have hle : min (preadAvail fileSize (offset + bytesRead) (count - bytesRead)) (k + 1) ≤
              count - bytesRead := by
            simp only [preadAvail]
            omega
          rw [ih _ (by omega)]
          congr 1
          simp only [preadAvail] at hrc hle ⊢
          omega
      · rw [PReadAllLoop, if_neg h]
        congr 1
        omega

/-- C4: PReadAll always succeeds in this failure-free model, EINTR events
being retried rather than surfaced, and the reported byte total is exactly
the bytes read: the lesser of the request and the bytes the file holds
past the offset.  Hence the total lies in the range 0..count and the loop
stops only on full completion or at end-of-file. -/
theorem preadall_reads_all (fileSize count offset : Nat) (sched : List PReadEvent) :
    PReadAll fileSize count offset sched = some (min count (fileSize - offset)) ∧
    min count (fileSize - offset) ≤ count ∧
    (min count (fileSize - offset) = count ∨
      fileSize ≤ offset + min count (fileSize - offset)) := by
  refine ⟨?_, by omega, by omega⟩
  have h := preadallLoop_eq fileSize count offset sched 0 (Nat.zero_le count)
  simpa [PReadAll] using h

/-- Helper: appending the two strings built from take and drop of the same
character list restores the original string. -/
theorem string_mk_take_drop (l : List Char) (n : Nat) :
    String.mk (l.take n) ++ String.mk (l.drop n) = String.mk l := by
  show String.mk (l.take n ++ l.drop n) = String.mk l
  rw [List.take_append_drop]

/-- C7: for a device path with the /dev/ root and a non-empty trailing
digit run, RootDevice and PartitionNumber split the path exactly, so their
concatenation restores it; on any other input both return the empty
string. -/
theorem root_partition_split (s : String) :
    (hasDevRoot s = true → 0 < trailingDigits s →
      RootDevice s ++ PartitionNumber s = s) ∧
    ((hasDevRoot s = false ∨ trailingDigits s = 0) →
      RootDevice s = "" ∧ PartitionNumber s = "") := by
  constructor
  · intro h1 h2
    have hc : hasDevRoot s = true ∧ 0 < trailingDigits s := ⟨h1, h2⟩
    simp only [RootDevice, PartitionNumber, if_pos hc]
    rw [string_mk_take_drop]
  · intro h
    have hc : ¬ (hasDevRoot s = true ∧ 0 < trailingDigits s) := by
      rintro ⟨ha, hb⟩
      rcases h with h | h
      · rw [h] at ha
        exact Bool.false_ne_true ha
      · omega
    simp only [RootDevice, PartitionNumber, if_neg hc]
    constructor <;> simp

/-- Witness for C7: the concrete device path /dev/sda3 splits into
/dev/sda and 3, and an input without the /dev/ root maps to the empty
string by both functions. -/
theorem root_partition_split_witness :
    RootDevice "/dev/sda3" ++ PartitionNumber "/dev/sda3" = "/dev/sda3" ∧
    RootDevice "/foo/sda3" = "" ∧ PartitionNumber "/foo/sda3" = "" := by
  refine ⟨(root_partition_split "/dev/sda3").1 (by decide) (by decide), ?_⟩
  exact (root_partition_split "/foo/sda3").2 (Or.inl (by decide))

/-- Helper: RandInt lands in the closed range lo..hi whenever the range is
non-empty. -/
theorem randInt_mem (oracle lo hi : Int) (h : lo ≤ hi) :
    lo ≤ RandInt oracle lo hi ∧ RandInt oracle lo hi ≤ hi := by
  unfold RandInt
  have hpos : 0 < hi - lo + 1 := by omega
  have h1 : 0 ≤ oracle.emod (hi - lo + 1) := Int.emod_nonneg _ (by omega)
  have h2 : oracle.emod (hi - lo + 1) < hi - lo + 1 := Int.emod_lt_of_pos _ hpos
  constructor <;> omega

/-- C8 counterexample: at value 0 and range 0 the half-open interval of
the claim is empty, so the value FuzzInt returns cannot lie in it. -/
theorem fuzzint_halfopen_counterexample :
    ¬ ((0 : Int) - (((0 : Nat) / 2 : Nat) : Int) ≤ FuzzInt 0 0 0 ∧
       FuzzInt 0 0 0 < 0 + (((0 : Nat) : Int) - (((0 : Nat) / 2 : Nat) : Int))) := by
  decide

/-- C8 (amended): FuzzInt returns an integer in the closed interval from
value - range / 2 to value + range - range / 2, as the utils.h doc comment
states, for every oracle, integer value and unsigned range. -/
theorem fuzzint_in_closed_range (oracle value : Int) (range : Nat) :
    value - ((range / 2 : Nat) : Int) ≤ FuzzInt oracle value range ∧
    FuzzInt oracle value range ≤ value + ((range : Int) - ((range / 2 : Nat) : Int)) := by
  have hhalf : ((range / 2 : Nat) : Int) ≤ (range : Int) := by
    exact_mod_cast Nat.div_le_self range 2
  exact randInt_mem oracle _ _ (by omega)

/-- C9: the CpuShares enum has exactly the three values High 2048,
Normal 1024 and Low 2, and the sign of CompareCpuShares equals the sign of
the difference of the underlying integers. -/
theorem cpushares_enum_and_compare :
    CpuShares.toInt CpuShares.kCpuSharesHigh = 2048 ∧
    CpuShares.toInt CpuShares.kCpuSharesNormal = 1024 ∧
    CpuShares.toInt CpuShares.kCpuSharesLow = 2 ∧
    (∀ x : CpuShares, x = CpuShares.kCpuSharesHigh ∨ x = CpuShares.kCpuSharesNormal ∨
      x = CpuShares.kCpuSharesLow) ∧
    (∀ a b : CpuShares, (CompareCpuShares a b).sign = (a.toInt - b.toInt).sign) := by
  refine ⟨rfl, rfl, rfl, ?_, ?_⟩
  · intro x
    cases x
    · exact Or.inl rfl
    · exact Or.inr (Or.inl rfl)
    · exact Or.inr (Or.inr rfl)
  · intro a b
    rfl

/-- C10: HexDumpVector of the empty vector takes the address of a
non-existent element 0 and is therefore undefined (none), while
HexDumpString of the empty string makes a well-defined call with length 0;
every non-empty vector is dumped as its buffer and length. -/
theorem hexdump_empty_guard (v : List Char) :
    HexDumpVector [] = none ∧
    HexDumpString "" = some ([], 0) ∧
    (v ≠ [] → HexDumpVector v = some (v, v.length)) := by
  refine ⟨rfl, rfl, ?_⟩
  intro hv
  cases v with
  | nil => exact absurd rfl hv
  | cons a t => rfl

/-- Witness for C10 at a concrete singleton vector. -/
theorem hexdump_empty_guard_witness :
    HexDumpVector ['a'] = some (['a'], 1) :=
  (hexdump_empty_guard ['a']).2.2 (by decide)

end UpdateEngine
